import Mathlib

/-!
Verification of the Beauty-Agent transcript pipeline
(`service/youtube_extraction` and `service/agent`).

The Python source is shallowly embedded: pure functions become Lean
functions, the filesystem cache / Elasticsearch collection become explicit
state values, machine integers are `Nat`/`Int`, and fallible code returns
`Except`/`Option`.  Each definition carries a doc comment naming the source
function it embeds.
-/

namespace BeautyAgent

/-! ## Data model -/

/-- Entries produced by `split_video_to_multiple_transcript`
(`youtube_process.py`): a dict `{"time": ..., "text": ...}`. -/
structure Entry where
  time : String
  text : String
deriving DecidableEq, Repr

/-- Fields of the `YTSummaryResponse` pydantic model used by the Chinese
pipeline (`youtube_process.py` lines 398-410); `category` is the string
value of the `VideoCategory` enum. -/
structure VideoSummary where
  title_en : String
  summary_en : String
  title_zh : String
  summary_zh : String
  category : String
deriving DecidableEq, Repr

/-- Chunk dict built by `sliding_window` (`youtube_process.py` lines
357-374, Chinese branch). -/
structure Chunk where
  video_id : String
  youtuber : String
  title : String
  summary : String
  category : String
  title_zh : String
  summary_zh : String
  chunk_id : Nat
  start_time : String
  end_time : String
  content : String
deriving DecidableEq, Repr

/-! ## ChunkBuilder: `sliding_window` (`youtube_process.py` lines 278-381) -/

/-- Time of the first entry of a window: `window[0]["time"]`.  The caller
only evaluates this on windows of length at least 2, so the `""` default is
never reached there. -/
def firstTime (window : List Entry) : String :=
  (window.head?.map Entry.time).getD ""

/-- Time of the last entry of a window: `window[-1]["time"]`. -/
def lastTime (window : List Entry) : String :=
  (window.getLast?.map Entry.time).getD ""

/-- Chunk dict appended by the Chinese branch of `sliding_window`
(lines 358-374): summary fields copied verbatim, boundary times from the
window, content the window texts joined by single spaces. -/
def mkWindowChunk (video_id youtuber : String) (vs : VideoSummary)
    (window : List Entry) (chunkId : Nat) : Chunk :=
  { video_id := video_id
    youtuber := youtuber
    title := vs.title_en
    summary := vs.summary_en
    category := vs.category
    title_zh := vs.title_zh
    summary_zh := vs.summary_zh
    chunk_id := chunkId
    start_time := firstTime window
    end_time := lastTime window
    content := String.intercalate " " (window.map Entry.text) }

/-- Python `range(0, total, step)` for `step >= 1`: the multiples of
`step` below `total`.  (`range` with step 0 raises in Python and is never
used by the source; here it degenerates to `[]`.) -/
def pyRange (total step : Nat) : List Nat :=
  List.range' 0 ((total + step - 1) / step) step

/-- Loop body of `sliding_window` (lines 330-379): iterate over the start
offsets, break before emitting a window of fewer than 2 entries, and break
right after emitting a window whose end reaches `total`. -/
def slidingWindowLoop (video_id youtuber : String) (vs : VideoSummary)
    (parsed : List Entry) (W : Nat) : Nat → List Nat → List Chunk
  | _, [] => []
  | chunkId, start :: rest =>
    let e := min (start + W) parsed.length
    let window := (parsed.drop start).take (e - start)
    if window.length < 2 then []
    else
      mkWindowChunk video_id youtuber vs window chunkId ::
        (if e = parsed.length then []
         else slidingWindowLoop video_id youtuber vs parsed W (chunkId + 1) rest)

/-- The function `sliding_window` of `youtube_process.py` (lines 278-381),
Chinese branch (the default `language="Chinese"`), with `chunk_id`
starting at 1. -/
def sliding_window (video_id youtuber : String) (parsed : List Entry)
    (video_summary : VideoSummary) (window_size step_size : Nat) : List Chunk :=
  slidingWindowLoop video_id youtuber video_summary parsed window_size 1
    (pyRange parsed.length step_size)

/-! ## Reference algorithm, modelled from the spec's words (section 4.2)

The spec describes the chunking independently of the loop shape: the start
offsets are `0, S, 2S, ...` while `start < total`; each start yields the
half-open index window `[start, min(start+W, total))`; the emitted windows
are the prefix of these that stops before the first window of fewer than 2
entries and stops right after the first window whose end equals `total`;
chunk ids count up from 1. -/

/-- Reference start offsets per the spec: `start = 0, S, 2S, ...` while
`start < total`. -/
def specStarts (total S : Nat) : List Nat :=
  List.range' 0 ((total + S - 1) / S) S

/-- Reference window selection per the spec: for each start in order, take
`end = min(start+W, total)`; terminate before any window of fewer than 2
entries; terminate immediately after the first window whose end equals
`total`.  Windows are `(start, end)` index pairs. -/
def specWindows (total W : Nat) : List Nat → List (Nat × Nat)
  | [] => []
  | s :: rest =>
    let e := min (s + W) total
    if e - s < 2 then []
    else (s, e) :: (if e = total then [] else specWindows total W rest)

/-- Reference chunk for an index window `(start, end)` per the spec:
`entries[start:end]`, boundary times, space-joined content, summary fields
verbatim. -/
def specChunkAt (video_id youtuber : String) (vs : VideoSummary)
    (parsed : List Entry) (chunkId : Nat) (w : Nat × Nat) : Chunk :=
  mkWindowChunk video_id youtuber vs ((parsed.drop w.1).take (w.2 - w.1)) chunkId

/-- Reference assembly per the spec: `chunk_id` counts up from the given
seed over the selected windows. -/
def specAssemble (video_id youtuber : String) (vs : VideoSummary)
    (parsed : List Entry) : Nat → List (Nat × Nat) → List Chunk
  | _, [] => []
  | chunkId, w :: ws =>
    specChunkAt video_id youtuber vs parsed chunkId w ::
      specAssemble video_id youtuber vs parsed (chunkId + 1) ws

/-- The spec's reference chunking algorithm, assembled. -/
def specSlidingWindow (video_id youtuber : String) (parsed : List Entry)
    (video_summary : VideoSummary) (window_size step_size : Nat) : List Chunk :=
  specAssemble video_id youtuber video_summary parsed 1
    (specWindows parsed.length window_size (specStarts parsed.length step_size))

/-! ### Equivalence of the implementation with the reference algorithm -/

theorem slidingWindowLoop_eq_specAssemble (video_id youtuber : String)
    (vs : VideoSummary) (parsed : List Entry) (W : Nat) :
    ∀ (starts : List Nat) (chunkId : Nat),
      slidingWindowLoop video_id youtuber vs parsed W chunkId starts =
        specAssemble video_id youtuber vs parsed chunkId
          (specWindows parsed.length W starts) := by
  intro starts
  induction starts with
  | nil => intro chunkId; rfl
  | cons s rest ih =>
    intro chunkId
    simp only [slidingWindowLoop, specWindows]
    have hlen : ((parsed.drop s).take (min (s + W) parsed.length - s)).length
        = min (s + W) parsed.length - s := by
      simp only [List.length_take, List.length_drop]
      omega
    rw [hlen]
    by_cases h2 : min (s + W) parsed.length - s < 2
    · simp [h2, specAssemble]
    · simp only [h2, if_false]
      by_cases he : min (s + W) parsed.length = parsed.length
      · simp [he, specAssemble, specChunkAt]
      · simp [he, specAssemble, specChunkAt, ih]

/-- Entries of the spec's concrete scenario (section 8): raw lines
`0:00 Hello`, `0:05 World`, `0:10 Again`. -/
def demoEntries : List Entry :=
  [⟨"0:00", "Hello"⟩, ⟨"0:05", "World"⟩, ⟨"0:10", "Again"⟩]

/-- A fixed summary standing in for the external summarizer's output in
concrete scenarios. -/
def demoSummary : VideoSummary :=
  ⟨"Demo title", "Demo summary", "標題", "摘要", "makeup"⟩

/-- C1: for every non-empty entry list, window size `W >= 2` and step size
`S >= 1`, `sliding_window` emits exactly the chunks of the spec's
reference algorithm — windows `entries[start:min(start+W,total)]` for
`start = 0, S, 2S, ...`, terminating before emitting any window of fewer
than 2 entries and terminating immediately after the first window whose
end equals `total`, with `chunk_id` counting up from 1, boundary times from
the window's first and last entries, and content the window texts joined
by single spaces. -/
theorem sliding_window_matches_spec (video_id youtuber : String)
    (parsed : List Entry) (video_summary : VideoSummary) (W S : Nat)
    (hne : parsed ≠ []) (hW : 2 ≤ W) (hS : 1 ≤ S) :
    sliding_window video_id youtuber parsed video_summary W S =
      specSlidingWindow video_id youtuber parsed video_summary W S := by
  unfold sliding_window specSlidingWindow pyRange specStarts
  exact slidingWindowLoop_eq_specAssemble video_id youtuber video_summary parsed W _ 1

/-- Witness for C1, on the spec's concrete scenario: three entries,
window 2, step 1 give exactly the two chunks `0:00-0:05 "Hello World"`
and `0:05-0:10 "World Again"`. -/
theorem sliding_window_matches_spec_witness :
    demoEntries ≠ [] ∧ 2 ≤ 2 ∧ 1 ≤ 1 ∧
    sliding_window "vid" "creator" demoEntries demoSummary 2 1 =
      specSlidingWindow "vid" "creator" demoEntries demoSummary 2 1 ∧
    sliding_window "vid" "creator" demoEntries demoSummary 2 1 =
      [{ video_id := "vid", youtuber := "creator", title := "Demo title",
         summary := "Demo summary", category := "makeup", title_zh := "標題",
         summary_zh := "摘要", chunk_id := 1, start_time := "0:00",
         end_time := "0:05", content := "Hello World" },
       { video_id := "vid", youtuber := "creator", title := "Demo title",
         summary := "Demo summary", category := "makeup", title_zh := "標題",
         summary_zh := "摘要", chunk_id := 2, start_time := "0:05",
         end_time := "0:10", content := "World Again" }] :=
  ⟨by decide, by decide, by decide,
   sliding_window_matches_spec "vid" "creator" demoEntries demoSummary 2 1
     (by decide) (by decide) (by decide),
   by decide⟩

/-! ### C4: tail coverage of `sliding_window` -/

/-- A run of the loop starting at an offset with at least 2 entries left
emits at least its first chunk. -/
theorem slidingWindowLoop_ne_nil (video_id youtuber : String)
    (vs : VideoSummary) (parsed : List Entry) (W : Nat) (s chunkId : Nat)
    (rest : List Nat) (hW : 2 ≤ W) (hs : s + 2 ≤ parsed.length) :
    slidingWindowLoop video_id youtuber vs parsed W chunkId (s :: rest) ≠ [] := by
  simp only [slidingWindowLoop]
  have hlen : ((parsed.drop s).take (min (s + W) parsed.length - s)).length
      = min (s + W) parsed.length - s := by
    simp only [List.length_take, List.length_drop]
    omega
  rw [hlen]
  have h2 : ¬ min (s + W) parsed.length - s < 2 := by omega
  simp [h2]

/-- Entries of length at least 4 with `step = 3 > window = 2`; the start
offset 3 leaves a 1-entry tail which `sliding_window` drops. -/
def ce4Entries : List Entry :=
  [⟨"0:00", "a"⟩, ⟨"0:01", "b"⟩, ⟨"0:02", "c"⟩, ⟨"0:03", "d"⟩]

/-- Counterexample to C4 as stated: with 4 entries, window `W = 2 >= 2`
and step `S = 3 >= 1`, the final chunk's `end_time` is `0:01`, not the
last entry's time `0:03` — the undersized tail window is dropped, so the
chunks do not cover the transcript up to its last entry. -/
theorem sliding_window_tail_dropped :
    2 ≤ ce4Entries.length ∧ 2 ≤ 2 ∧ 1 ≤ 3 ∧
    (sliding_window "v" "y" ce4Entries demoSummary 2 3).getLast?.map Chunk.end_time
      = some "0:01" ∧
    ce4Entries.getLast?.map Entry.time = some "0:03" ∧
    (sliding_window "v" "y" ce4Entries demoSummary 2 3).getLast?.map Chunk.end_time
      ≠ ce4Entries.getLast?.map Entry.time := by
  decide

/-- The ceiling count of `pyRange` covers `total`: the offsets reach past
the end of the entry list. -/
theorem ceil_div_mul_ge (total S : Nat) (hS : 0 < S) :
    total ≤ ((total + S - 1) / S) * S := by
  have h1 := Nat.div_add_mod (total + S - 1) S
  have h2 := Nat.mod_lt (total + S - 1) hS
  rw [Nat.mul_comm]
  omega

/-- Dropping fewer elements than the length keeps the last element. -/
theorem getLast?_drop_of_lt {α : Type} (l : List α) (n : Nat)
    (h : n < l.length) : (l.drop n).getLast? = l.getLast? := by
  conv_rhs => rw [← List.take_append_drop n l]
  rw [List.getLast?_append_of_ne_nil]
  intro he
  have := congrArg List.length he
  simp at this
  omega

/-- When the step is smaller than the window, a loop run whose offsets
reach past the end of the list ends with a chunk whose `end_time` is the
last entry's time. -/
theorem slidingWindowLoop_getLast (video_id youtuber : String)
    (vs : VideoSummary) (parsed : List Entry) (W S : Nat)
    (hW : 2 ≤ W) (hSW : S < W) (hS : 0 < S) :
    ∀ (n s chunkId : Nat), s + 2 ≤ parsed.length →
      parsed.length ≤ s + n * S →
      (slidingWindowLoop video_id youtuber vs parsed W chunkId
          (List.range' s n S)).getLast?.map Chunk.end_time
        = parsed.getLast?.map Entry.time := by
  intro n
  induction n with
  | zero => intro s chunkId hs hcov; simp at hcov; omega
  | succ m ih =>
    intro s chunkId hs hcov
    rw [List.range'_succ]
    simp only [slidingWindowLoop]
    have hlen : ((parsed.drop s).take (min (s + W) parsed.length - s)).length
        = min (s + W) parsed.length - s := by
      simp only [List.length_take, List.length_drop]
      omega
    rw [hlen]
    have h2 : ¬ min (s + W) parsed.length - s < 2 := by omega
    simp only [h2, if_false]
    by_cases he : min (s + W) parsed.length = parsed.length
    · simp only [he, if_true, List.getLast?_cons, List.getLast?_nil, Option.or_none]
      have hwin : (parsed.drop s).take (parsed.length - s) = parsed.drop s := by
        apply List.take_of_length_le
        simp
      rw [hwin]
      have hdrop := getLast?_drop_of_lt parsed s (by omega)
      obtain ⟨x, hx⟩ : ∃ x, parsed.getLast? = some x := by
        cases hl : parsed.getLast? with
        | none =>
          rw [List.getLast?_eq_none_iff] at hl
          subst hl; simp at hs
        | some x => exact ⟨x, rfl⟩
      simp only [mkWindowChunk, lastTime, hdrop, hx]
      rfl
    · have hsW : s + W < parsed.length := by
        rcases Nat.lt_or_ge (s + W) parsed.length with h | h
        · exact h
        · exact absurd (by omega : min (s + W) parsed.length = parsed.length) he
      simp only [he, if_false]
      have hmS : (m + 1) * S = m * S + S := by ring
      have hm : 0 < m := by
        rcases Nat.eq_zero_or_pos m with h0 | h0
        · subst h0; simp at hcov; omega
        · exact h0
      obtain ⟨m', rfl⟩ : ∃ m', m = m' + 1 := ⟨m - 1, by omega⟩
      have htail := ih (s + S) (chunkId + 1) (by omega) (by
        have : (m' + 1) * S + S = (m' + 1 + 1) * S := by ring
        omega)
      have hne := slidingWindowLoop_ne_nil video_id youtuber vs parsed W
        (s + S) (chunkId + 1) (List.range' (s + S + S) m' S) hW (by omega)
      rw [List.range'_succ] at htail ⊢
      cases hcase : slidingWindowLoop video_id youtuber vs parsed W (chunkId + 1)
          ((s + S) :: List.range' (s + S + S) m' S) with
      | nil => exact absurd hcase hne
      | cons c t =>
        rw [hcase] at htail
        rw [List.getLast?_cons_cons]
        exact htail

/-- C4 as amended: for every entry list of length `N >= 2`, window
`W >= 2` and step `S >= 1`, the chunk list is non-empty; and when
additionally `S < W` (so that consecutive windows overlap, as the default
`W = 15`, `S = 3` does) the final chunk's `end_time` equals the last
entry's time.  (When `S >= W` an undersized tail window can be dropped,
leaving the transcript end uncovered — see the counterexample.) -/
theorem sliding_window_nonempty_and_covers (video_id youtuber : String)
    (parsed : List Entry) (video_summary : VideoSummary) (W S : Nat)
    (hN : 2 ≤ parsed.length) (hW : 2 ≤ W) (hS : 1 ≤ S) :
    sliding_window video_id youtuber parsed video_summary W S ≠ [] ∧
    (S < W →
      (sliding_window video_id youtuber parsed video_summary W S).getLast?.map
          Chunk.end_time
        = parsed.getLast?.map Entry.time) := by
  constructor
  · unfold sliding_window pyRange
    have hcnt : 1 ≤ (parsed.length + S - 1) / S := by
      rw [Nat.one_le_div_iff (by omega)]
      omega
    obtain ⟨k, hk⟩ : ∃ k, (parsed.length + S - 1) / S = k + 1 :=
      ⟨(parsed.length + S - 1) / S - 1, by omega⟩
    rw [hk, List.range'_succ]
    exact slidingWindowLoop_ne_nil video_id youtuber video_summary parsed W 0 1 _
      hW (by omega)
  · intro hSW
    unfold sliding_window pyRange
    exact slidingWindowLoop_getLast video_id youtuber video_summary parsed W S
      hW hSW (by omega) _ 0 1 (by omega)
      (by simpa using ceil_div_mul_ge parsed.length S (by omega))

/-- Witness for C4 as amended: three entries, window 2, step 1. -/
theorem sliding_window_nonempty_and_covers_witness :
    2 ≤ demoEntries.length ∧ 2 ≤ 2 ∧ 1 ≤ 1 ∧
    (sliding_window "vid" "creator" demoEntries demoSummary 2 1 ≠ [] ∧
      (1 < 2 →
        (sliding_window "vid" "creator" demoEntries demoSummary 2 1).getLast?.map
            Chunk.end_time
          = demoEntries.getLast?.map Entry.time)) :=
  ⟨by decide, by decide, by decide,
   sliding_window_nonempty_and_covers "vid" "creator" demoEntries demoSummary 2 1
     (by decide) (by decide) (by decide)⟩

/-! ## TranscriptSplitter: `split_video_to_multiple_transcript`
(`youtube_process.py` lines 237-275) -/

/-- Python whitespace for `str.strip()` and the regex class `\s`
(ASCII range). -/
def pySpace (c : Char) : Bool :=
  c = ' ' || c = '\t' || c = '\n' || c = '\r' || c = '\x0b' || c = '\x0c'

/-- Python `str.strip()` on a character list. -/
def pyStrip (l : List Char) : List Char :=
  ((l.dropWhile pySpace).reverse.dropWhile pySpace).reverse

/-- Python `str.split(sep)` for a one-character separator: `""` splits to
`[""]`, and `n` separators yield `n+1` groups. -/
def splitOnChar (sep : Char) : List Char → List (List Char)
  | [] => [[]]
  | c :: cs =>
    let r := splitOnChar sep cs
    if c = sep then [] :: r
    else
      match r with
      | g :: gs => (c :: g) :: gs
      | [] => [[c]]

/-- The anchored regex `(\d+:\d+)\s*(.*)` of
`split_video_to_multiple_transcript`: greedy digit runs, a colon, then the
rest of the line after any whitespace.  Returns the matched time token and
group 2 (the sentence, not yet stripped). -/
def matchTimeLine (line : List Char) : Option (List Char × List Char) :=
  let d1 := line.takeWhile Char.isDigit
  let r1 := line.dropWhile Char.isDigit
  if d1.isEmpty then none
  else
    match r1 with
    | ':' :: r2 =>
      let d2 := r2.takeWhile Char.isDigit
      let r3 := r2.dropWhile Char.isDigit
      if d2.isEmpty then none
      else some (d1 ++ ':' :: d2, r3.dropWhile pySpace)
    | _ => none

/-- Loop body of `split_video_to_multiple_transcript`: on a matching line
append the entry and extend the running transcript with the stripped
sentence plus a space; otherwise leave the accumulators unchanged. -/
def splitStep (acc : List Entry × String) (line : List Char) : List Entry × String :=
  match matchTimeLine line with
  | none => acc
  | some (t, rest) =>
    let sentence : String := ⟨pyStrip rest⟩
    (acc.1 ++ [⟨⟨t⟩, sentence⟩], acc.2 ++ sentence ++ " ")

/-- The function `split_video_to_multiple_transcript` of
`youtube_process.py` (lines 237-275), applied to `video["transcript"]`:
strip the raw text, split on newlines, keep the lines matched by
`(\d+:\d+)\s*(.*)`. -/
def split_video_to_multiple_transcript (transcript : String) : List Entry × String :=
  (splitOnChar '\n' (pyStrip transcript.data)).foldl splitStep ([], "")

/-- The lines the splitter iterates over. -/
def pyLines (transcript : String) : List (List Char) :=
  splitOnChar '\n' (pyStrip transcript.data)

/-- The entry a single line contributes, if any. -/
def lineEntry (line : List Char) : Option Entry :=
  (matchTimeLine line).map (fun p => ⟨⟨p.1⟩, ⟨pyStrip p.2⟩⟩)

/-- Each kept sentence followed by one space, concatenated — the shape of
the full-transcript accumulator. -/
def joinSpaced (texts : List String) : String :=
  texts.foldr (fun t acc => t ++ " " ++ acc) ""

theorem splitStep_foldl (lines : List (List Char)) :
    ∀ acc : List Entry × String,
      (lines.foldl splitStep acc).1 = acc.1 ++ lines.filterMap lineEntry ∧
      (lines.foldl splitStep acc).2 =
        acc.2 ++ joinSpaced ((lines.filterMap lineEntry).map Entry.text) := by
  induction lines with
  | nil => intro acc; simp [joinSpaced, String.append_empty]
  | cons line rest ih =>
    intro acc
    simp only [List.foldl_cons, List.filterMap_cons]
    cases hm : matchTimeLine line with
    | none =>
      have hstep : splitStep acc line = acc := by simp [splitStep, hm]
      have hle : lineEntry line = none := by simp [lineEntry, hm]
      rw [hstep, hle]
      exact ih acc
    | some p =>
      have hstep : splitStep acc line =
          (acc.1 ++ [⟨⟨p.1⟩, ⟨pyStrip p.2⟩⟩], acc.2 ++ ⟨pyStrip p.2⟩ ++ " ") := by
        simp [splitStep, hm]
      have hle : lineEntry line = some ⟨⟨p.1⟩, ⟨pyStrip p.2⟩⟩ := by
        simp [lineEntry, hm]
      rw [hstep, hle]
      obtain ⟨ih1, ih2⟩ := ih (acc.1 ++ [⟨⟨p.1⟩, ⟨pyStrip p.2⟩⟩],
        acc.2 ++ ⟨pyStrip p.2⟩ ++ " ")
      refine ⟨?_, ?_⟩
      · rw [ih1]; simp
      · rw [ih2]
        simp only [List.map_cons, joinSpaced, List.foldr_cons]
        rw [String.append_assoc, String.append_assoc, String.append_assoc]

/-- Counterexample to C3 as stated: the line `1:02:03 Hello` begins with
an `H:MM:SS` timestamp token, yet the produced entry's time field is only
`1:02` — the regex `(\d+:\d+)` keeps just the first two numeric
components, leaving `:03` at the front of the text — and the returned
full-transcript string carries a trailing space. -/
theorem split_video_truncates_hmmss :
    split_video_to_multiple_transcript "1:02:03 Hello" =
      ([⟨"1:02", ":03 Hello"⟩], ":03 Hello ") ∧
    ("1:02" : String) ≠ "1:02:03" := by
  decide

/-- C3 as amended: the splitter returns one entry per line beginning with
a `digits:colon:digits` token (the regex `(\d+:\d+)`), in line order, the
time field being exactly the matched token — for an `H:MM:SS` line only
`H:MM`, the `:SS` remainder staying at the front of the text — and the
text field the remainder stripped of surrounding whitespace; lines
without such a token are dropped without error; empty input yields an
empty entry list; and the returned full-transcript string is each kept
sentence followed by a single space, concatenated (so it ends in a space
whenever any line matched). -/
theorem split_video_characterization (transcript : String) :
    (split_video_to_multiple_transcript transcript).1 =
      (pyLines transcript).filterMap lineEntry ∧
    (split_video_to_multiple_transcript transcript).2 =
      joinSpaced (((pyLines transcript).filterMap lineEntry).map Entry.text) ∧
    (transcript = "" → split_video_to_multiple_transcript transcript = ([], "")) := by
  obtain ⟨h1, h2⟩ := splitStep_foldl (pyLines transcript) ([], "")
  refine ⟨?_, ?_, ?_⟩
  · simpa [split_video_to_multiple_transcript, pyLines] using h1
  · simpa [split_video_to_multiple_transcript, pyLines, String.empty_append] using h2
  · intro h; subst h; decide

/-- Witness for C3 as amended, at a transcript mixing an `M:SS` line, a
droppable line and trailing whitespace. -/
theorem split_video_characterization_witness :
    (split_video_to_multiple_transcript "0:00 Hi\nnope\n0:05  there ").1 =
      (pyLines "0:00 Hi\nnope\n0:05  there ").filterMap lineEntry ∧
    (split_video_to_multiple_transcript "0:00 Hi\nnope\n0:05  there ").2 =
      joinSpaced
        (((pyLines "0:00 Hi\nnope\n0:05  there ").filterMap lineEntry).map Entry.text) ∧
    ("" = "" → split_video_to_multiple_transcript "" = ([], "")) ∧
    split_video_to_multiple_transcript "0:00 Hi\nnope\n0:05  there " =
      ([⟨"0:00", "Hi"⟩, ⟨"0:05", "there"⟩], "Hi there ") := by
  have h := split_video_characterization "0:00 Hi\nnope\n0:05  there "
  have h0 := split_video_characterization ""
  exact ⟨h.1, h.2.1, fun _ => h0.2.2 rfl, by decide⟩

/-! ## Timestamp formatting and parsing

`YoutubeParser._format_timestamp` (`youtube_parser.py` lines 171-189) and
`YoutubeSummaryOutput.time_to_seconds` (`youtube_agent.py` lines 246-257). -/

/-- Decimal rendering of a natural number, most significant digit first,
as Python's number formatting produces; structural on a fuel argument that
is always sufficient at `n + 1`. -/
def natDigitsAux : Nat → Nat → List Char → List Char
  | 0, _, acc => acc
  | fuel + 1, n, acc =>
    if n < 10 then Nat.digitChar n :: acc
    else natDigitsAux fuel (n / 10) (Nat.digitChar (n % 10) :: acc)

/-- Decimal digits of `n`, the rendering of Python `f"{n}"`. -/
def natDigits (n : Nat) : List Char := natDigitsAux (n + 1) n []

/-- Python `f"{n:02}"`: zero-pad to width 2 (never truncates). -/
def pad2 (n : Nat) : List Char :=
  if n < 10 then '0' :: natDigits n else natDigits n

/-- The static method `YoutubeParser._format_timestamp`
(`youtube_parser.py` lines 171-189) on a whole number of seconds:
`divmod` by 3600 then 60, rendered `H:MM:SS` when hours are positive and
`M:SS` otherwise. -/
def format_timestamp (seconds : Nat) : String :=
  let hours := seconds / 3600
  let remainder := seconds % 3600
  let minutes := remainder / 60
  let secs := remainder % 60
  if 0 < hours then
    ⟨natDigits hours ++ ':' :: (pad2 minutes ++ ':' :: pad2 secs)⟩
  else ⟨natDigits minutes ++ ':' :: pad2 secs⟩

/-- Value of a decimal digit character. -/
def digitVal (c : Char) : Nat := c.toNat - 48

/-- Running decimal value of a digit list, the way positional parsing
accumulates it. -/
def parseFold (l : List Char) (a : Nat) : Nat :=
  l.foldl (fun x c => 10 * x + digitVal c) a

/-- Digit run with Python's underscore rule (a single `_` only between
digits), the tail of `int(str)` after the first digit. -/
def pyDigitsU : List Char → Nat → Option Nat
  | [], acc => some acc
  | c :: cs, acc =>
    if c = '_' then
      match cs with
      | [] => none
      | c2 :: cs2 =>
        if c2.isDigit then pyDigitsU cs2 (10 * acc + digitVal c2) else none
    else if c.isDigit then pyDigitsU cs (10 * acc + digitVal c) else none

/-- Nonempty digit run starting `int(str)`'s digits. -/
def pyNatDigits : List Char → Option Nat
  | [] => none
  | c :: rest => if c.isDigit then pyDigitsU rest (digitVal c) else none

/-- Python `int(str)`: surrounding whitespace stripped, one optional sign,
then digits (with single underscores allowed between digits); anything
else raises `ValueError`, modelled as `none`. -/
def pyIntOfChars (cs : List Char) : Option Int :=
  match pyStrip cs with
  | [] => none
  | c :: rest =>
    if c = '+' then (pyNatDigits rest).map Int.ofNat
    else if c = '-' then (pyNatDigits rest).map (fun n => -(n : Int))
    else (pyNatDigits (c :: rest)).map Int.ofNat

/-- The list comprehension `[int(p) for p in parts]`: left to right, the
first failure raises. -/
def pyIntList : List (List Char) → Option (List Int)
  | [] => some []
  | p :: ps =>
    match pyIntOfChars p with
    | none => none
    | some v => (pyIntList ps).map (v :: ·)

/-- The method `YoutubeSummaryOutput.time_to_seconds` (`youtube_agent.py`
lines 246-257): split on `":"`, convert every field with `int`, then
combine 2 fields as `MM:SS` and 3 fields as `HH:MM:SS`; any other field
count raises `ValueError`. -/
def time_to_seconds (time_str : String) : Except String Int :=
  match pyIntList (splitOnChar ':' time_str.data) with
  | none => Except.error "invalid literal for int() with base 10"
  | some parts =>
    match parts with
    | [minutes, seconds] => Except.ok (minutes * 60 + seconds)
    | [hours, minutes, seconds] => Except.ok (hours * 3600 + minutes * 60 + seconds)
    | _ => Except.error "Invalid time format"

/-! ### Inversion of the decimal rendering -/

theorem natDigitsAux_append (fuel : Nat) :
    ∀ n acc, n < fuel → natDigitsAux fuel n acc = natDigitsAux fuel n [] ++ acc := by
  induction fuel with
  | zero => intro n acc h; omega
  | succ f ih =>
    intro n acc h
    by_cases h10 : n < 10
    · simp [natDigitsAux, h10]
    · have hlt : n / 10 < f := by omega
      simp only [natDigitsAux, h10, if_false]
      rw [ih (n / 10) _ hlt, ih (n / 10) [Nat.digitChar (n % 10)] hlt,
        List.append_assoc]
      rfl

theorem natDigitsAux_mem (fuel : Nat) :
    ∀ n, n < fuel → ∀ c ∈ natDigitsAux fuel n [],
      ∃ d, d < 10 ∧ c = Nat.digitChar d := by
  induction fuel with
  | zero => intro n h; omega
  | succ f ih =>
    intro n h c hc
    by_cases h10 : n < 10
    · simp [natDigitsAux, h10] at hc
      exact ⟨n, h10, hc⟩
    · have hlt : n / 10 < f := by omega
      simp only [natDigitsAux, h10, if_false] at hc
      rw [natDigitsAux_append f (n / 10) _ hlt] at hc
      rcases List.mem_append.1 hc with hl | hr
      · exact ih (n / 10) hlt c hl
      · simp at hr
        exact ⟨n % 10, by omega, hr⟩

theorem natDigitsAux_ne_nil (fuel : Nat) :
    ∀ n, n < fuel → natDigitsAux fuel n [] ≠ [] := by
  intro n h
  cases fuel with
  | zero => omega
  | succ f =>
    by_cases h10 : n < 10
    · simp [natDigitsAux, h10]
    · have hlt : n / 10 < f := by omega
      simp only [natDigitsAux, h10, if_false]
      rw [natDigitsAux_append f (n / 10) _ hlt]
      simp

theorem parseFold_natDigitsAux (fuel : Nat) :
    ∀ n, n < fuel → ∀ a,
      parseFold (natDigitsAux fuel n []) a =
        a * 10 ^ (natDigitsAux fuel n []).length + n := by
  induction fuel with
  | zero => intro n h; omega
  | succ f ih =>
    intro n h a
    by_cases h10 : n < 10
    · have hdv : digitVal (Nat.digitChar n) = n := by
        have : ∀ d, d < 10 → digitVal (Nat.digitChar d) = d := by decide
        exact this n h10
      simp [natDigitsAux, h10, parseFold, hdv]
      omega
    · have hlt : n / 10 < f := by omega
      have hdv : digitVal (Nat.digitChar (n % 10)) = n % 10 := by
        have : ∀ d, d < 10 → digitVal (Nat.digitChar d) = d := by decide
        exact this (n % 10) (by omega)
      simp only [natDigitsAux, h10, if_false]
      rw [natDigitsAux_append f (n / 10) _ hlt]
      simp only [parseFold, List.foldl_append, List.foldl_cons, List.foldl_nil,
        List.length_append, List.length_cons, List.length_nil]
      have hih := ih (n / 10) hlt a
      simp only [parseFold] at hih
      rw [hih, hdv]
      have key : 10 * (a * 10 ^ (natDigitsAux f (n / 10) []).length + n / 10) + n % 10
          = a * (10 ^ (natDigitsAux f (n / 10) []).length * 10)
            + (10 * (n / 10) + n % 10) := by ring
      rw [key, Nat.div_add_mod, pow_succ]

theorem parseFold_natDigits (n : Nat) : parseFold (natDigits n) 0 = n := by
  have h := parseFold_natDigitsAux (n + 1) n (by omega) 0
  simpa [natDigits] using h

theorem natDigits_mem (n : Nat) :
    ∀ c ∈ natDigits n, ∃ d, d < 10 ∧ c = Nat.digitChar d :=
  natDigitsAux_mem (n + 1) n (by omega)

theorem natDigits_ne_nil (n : Nat) : natDigits n ≠ [] :=
  natDigitsAux_ne_nil (n + 1) n (by omega)

theorem pad2_mem (n : Nat) :
    ∀ c ∈ pad2 n, ∃ d, d < 10 ∧ c = Nat.digitChar d := by
  intro c hc
  unfold pad2 at hc
  by_cases h10 : n < 10
  · simp only [h10, if_true, List.mem_cons] at hc
    rcases hc with rfl | hc
    · exact ⟨0, by omega, by decide⟩
    · exact natDigits_mem n c hc
  · simp only [h10, if_false] at hc
    exact natDigits_mem n c hc

theorem pad2_ne_nil (n : Nat) : pad2 n ≠ [] := by
  unfold pad2
  by_cases h10 : n < 10
  · simp [h10]
  · simp only [h10, if_false]
    exact natDigits_ne_nil n

theorem parseFold_pad2 (n : Nat) : parseFold (pad2 n) 0 = n := by
  unfold pad2
  by_cases h10 : n < 10
  · simp only [h10, if_true, parseFold, List.foldl_cons]
    have h0 : 10 * 0 + digitVal '0' = 0 := by decide
    rw [h0]
    exact parseFold_natDigits n
  · simp only [h10, if_false]
    exact parseFold_natDigits n

/-- Digit characters are not whitespace, separators, signs or
underscores, and they satisfy `Char.isDigit`. -/
theorem digitChar_props : ∀ d, d < 10 →
    (Nat.digitChar d).isDigit = true ∧ Nat.digitChar d ≠ ':' ∧
    pySpace (Nat.digitChar d) = false ∧ Nat.digitChar d ≠ '_' ∧
    Nat.digitChar d ≠ '+' ∧ Nat.digitChar d ≠ '-' := by decide

theorem dropWhile_eq_self_of_all {l : List Char} {p : Char → Bool}
    (h : ∀ c ∈ l, p c = false) : l.dropWhile p = l := by
  cases l with
  | nil => rfl
  | cons c cs =>
    rw [List.dropWhile_cons]
    simp [h c (List.mem_cons_self c cs)]

theorem pyStrip_eq_self {l : List Char} (h : ∀ c ∈ l, pySpace c = false) :
    pyStrip l = l := by
  unfold pyStrip
  rw [dropWhile_eq_self_of_all h]
  rw [dropWhile_eq_self_of_all (by intro c hc; exact h c (by simpa using hc))]
  exact List.reverse_reverse l

theorem pyDigitsU_all_digits :
    ∀ l, (∀ c ∈ l, ∃ d, d < 10 ∧ c = Nat.digitChar d) →
      ∀ acc, pyDigitsU l acc = some (parseFold l acc) := by
  intro l
  induction l with
  | nil => intro _ acc; simp [pyDigitsU, parseFold]
  | cons c cs ih =>
    intro h acc
    obtain ⟨d, hd, rfl⟩ := h _ (List.mem_cons_self c cs)
    obtain ⟨hdig, -, -, hund, -, -⟩ := digitChar_props d hd
    rw [pyDigitsU.eq_def]
    simp only [hund, if_false, hdig, if_true]
    rw [ih (fun c hc => h c (List.mem_cons_of_mem _ hc))]
    simp [parseFold]

theorem pyNatDigits_all_digits (l : List Char) (hne : l ≠ [])
    (h : ∀ c ∈ l, ∃ d, d < 10 ∧ c = Nat.digitChar d) :
    pyNatDigits l = some (parseFold l 0) := by
  cases l with
  | nil => exact absurd rfl hne
  | cons c cs =>
    obtain ⟨d, hd, rfl⟩ := h _ (List.mem_cons_self c cs)
    obtain ⟨hdig, -, -, -, -, -⟩ := digitChar_props d hd
    rw [pyNatDigits]
    simp only [hdig, if_true]
    rw [pyDigitsU_all_digits cs (fun c hc => h c (List.mem_cons_of_mem _ hc))]
    simp [parseFold]

theorem pyIntOfChars_all_digits (l : List Char) (hne : l ≠ [])
    (h : ∀ c ∈ l, ∃ d, d < 10 ∧ c = Nat.digitChar d) :
    pyIntOfChars l = some (Int.ofNat (parseFold l 0)) := by
  have hsp : ∀ c ∈ l, pySpace c = false := by
    intro c hc
    obtain ⟨d, hd, rfl⟩ := h c hc
    exact (digitChar_props d hd).2.2.1
  unfold pyIntOfChars
  rw [pyStrip_eq_self hsp]
  cases l with
  | nil => exact absurd rfl hne
  | cons c cs =>
    obtain ⟨d, hd, hcd⟩ := h _ (List.mem_cons_self c cs)
    obtain ⟨-, -, -, -, hplus, hminus⟩ := digitChar_props d hd
    subst hcd
    simp only [hplus, if_false, hminus]
    rw [pyNatDigits_all_digits _ hne h]
    rfl

theorem pyIntOfChars_natDigits (n : Nat) :
    pyIntOfChars (natDigits n) = some (Int.ofNat n) := by
  rw [pyIntOfChars_all_digits (natDigits n) (natDigits_ne_nil n) (natDigits_mem n),
    parseFold_natDigits]

theorem pyIntOfChars_pad2 (n : Nat) :
    pyIntOfChars (pad2 n) = some (Int.ofNat n) := by
  rw [pyIntOfChars_all_digits (pad2 n) (pad2_ne_nil n) (pad2_mem n),
    parseFold_pad2]

/-! ### Splitting the formatted timestamp on colons -/

theorem splitOnChar_no_sep (sep : Char) :
    ∀ l : List Char, (∀ c ∈ l, c ≠ sep) → splitOnChar sep l = [l] := by
  intro l
  induction l with
  | nil => intro _; rfl
  | cons c cs ih =>
    intro h
    have hc : c ≠ sep := h c (List.mem_cons_self c cs)
    rw [splitOnChar]
    simp only [hc, if_false]
    rw [ih (fun x hx => h x (List.mem_cons_of_mem _ hx))]

theorem splitOnChar_append (sep : Char) :
    ∀ (A B : List Char), (∀ c ∈ A, c ≠ sep) →
      splitOnChar sep (A ++ sep :: B) = A :: splitOnChar sep B := by
  intro A
  induction A with
  | nil =>
    intro B _
    simp [splitOnChar]
  | cons a A' ih =>
    intro B h
    have ha : a ≠ sep := h a (List.mem_cons_self a A')
    rw [List.cons_append, splitOnChar]
    simp only [ha, if_false]
    rw [ih B (fun x hx => h x (List.mem_cons_of_mem _ hx))]

theorem natDigits_no_colon (n : Nat) : ∀ c ∈ natDigits n, c ≠ ':' := by
  intro c hc
  obtain ⟨d, hd, rfl⟩ := natDigits_mem n c hc
  exact (digitChar_props d hd).2.1

theorem pad2_no_colon (n : Nat) : ∀ c ∈ pad2 n, c ≠ ':' := by
  intro c hc
  obtain ⟨d, hd, rfl⟩ := pad2_mem n c hc
  exact (digitChar_props d hd).2.1

theorem splitOnChar_format (s : Nat) :
    splitOnChar ':' (format_timestamp s).data =
      if 0 < s / 3600 then
        [natDigits (s / 3600), pad2 (s % 3600 / 60), pad2 (s % 3600 % 60)]
      else [natDigits (s % 3600 / 60), pad2 (s % 3600 % 60)] := by
  unfold format_timestamp
  by_cases hh : 0 < s / 3600
  · simp only [hh, if_true]
    show splitOnChar ':' (natDigits (s / 3600) ++ ':' ::
      (pad2 (s % 3600 / 60) ++ ':' :: pad2 (s % 3600 % 60))) = _
    rw [splitOnChar_append ':' _ _ (natDigits_no_colon _),
      splitOnChar_append ':' _ _ (pad2_no_colon _),
      splitOnChar_no_sep ':' _ (pad2_no_colon _)]
  · simp only [hh, if_false]
    show splitOnChar ':' (natDigits (s % 3600 / 60) ++ ':' :: pad2 (s % 3600 % 60)) = _
    rw [splitOnChar_append ':' _ _ (natDigits_no_colon _),
      splitOnChar_no_sep ':' _ (pad2_no_colon _)]

/-! ### Properties of the field-wise `int` conversion -/

theorem pyIntList_length :
    ∀ (ps : List (List Char)) (vs : List Int), pyIntList ps = some vs →
      vs.length = ps.length := by
  intro ps
  induction ps with
  | nil => intro vs h; simp [pyIntList] at h; simp [← h]
  | cons p ps' ih =>
    intro vs h
    rw [pyIntList] at h
    cases hp : pyIntOfChars p with
    | none => rw [hp] at h; exact absurd h (by simp)
    | some v =>
      rw [hp] at h
      cases hps : pyIntList ps' with
      | none => rw [hps] at h; exact absurd h (by simp)
      | some vs' =>
        rw [hps] at h
        simp at h
        subst h
        simp [ih vs' hps]

theorem pyIntList_mem :
    ∀ (ps : List (List Char)) (vs : List Int), pyIntList ps = some vs →
      ∀ p ∈ ps, pyIntOfChars p ≠ none := by
  intro ps
  induction ps with
  | nil => intro vs _ p hp; simp at hp
  | cons q ps' ih =>
    intro vs h p hp
    rw [pyIntList] at h
    cases hq : pyIntOfChars q with
    | none => rw [hq] at h; exact absurd h (by simp)
    | some v =>
      rw [hq] at h
      cases hps : pyIntList ps' with
      | none => rw [hps] at h; exact absurd h (by simp)
      | some vs' =>
        rcases List.mem_cons.1 hp with rfl | hp'
        · simp [hq]
        · exact ih vs' hps p hp'

theorem natDigits_lt10 (n : Nat) (h : n < 10) : natDigits n = [Nat.digitChar n] := by
  simp [natDigits, natDigitsAux, h]

theorem natDigits_length_two (n : Nat) (h1 : 10 ≤ n) (h2 : n < 100) :
    (natDigits n).length = 2 := by
  obtain ⟨m, rfl⟩ : ∃ m, n = m + 1 := ⟨n - 1, by omega⟩
  simp [natDigits, natDigitsAux, show ¬ m + 1 < 10 by omega,
    show (m + 1) / 10 < 10 by omega]

theorem pad2_length (n : Nat) (h : n < 60) : (pad2 n).length = 2 := by
  unfold pad2
  by_cases h10 : n < 10
  · simp [h10, natDigits_lt10 n h10]
  · simp only [h10, if_false]
    exact natDigits_length_two n (by omega) (by omega)

theorem time_to_seconds_format (s : Nat) :
    time_to_seconds (format_timestamp s) = Except.ok (Int.ofNat s) := by
  unfold time_to_seconds
  rw [splitOnChar_format s]
  by_cases hh : 0 < s / 3600
  · simp only [hh, if_true, pyIntList, pyIntOfChars_natDigits, pyIntOfChars_pad2,
      Option.map]
    simp only [Except.ok.injEq, Int.ofNat_eq_coe]
    omega
  · simp only [hh, if_false, pyIntList, pyIntOfChars_natDigits, pyIntOfChars_pad2,
      Option.map]
    simp only [Except.ok.injEq, Int.ofNat_eq_coe]
    omega

theorem format_timestamp_fields (s : Nat) :
    (splitOnChar ':' (format_timestamp s).data).length
        = (if 3600 ≤ s then 3 else 2) ∧
      ∀ g ∈ (splitOnChar ':' (format_timestamp s).data).tail, g.length = 2 := by
  rw [splitOnChar_format s]
  by_cases hh : 0 < s / 3600
  · have h36 : 3600 ≤ s := by omega
    simp only [hh, if_true, h36, List.length_cons, List.length_nil, List.tail_cons]
    refine ⟨trivial, ?_⟩
    intro g hg
    rcases List.mem_cons.1 hg with rfl | hg'
    · exact pad2_length _ (by omega)
    · simp at hg'
      subst hg'
      exact pad2_length _ (by omega)
  · have h36 : ¬ 3600 ≤ s := by omega
    simp only [hh, if_false, h36, List.length_cons, List.length_nil, List.tail_cons]
    refine ⟨trivial, ?_⟩
    intro g hg
    simp at hg
    subst hg
    exact pad2_length _ (by omega)

theorem time_to_seconds_error (str : String)
    (h : ((splitOnChar ':' str.data).length ≠ 2 ∧
          (splitOnChar ':' str.data).length ≠ 3) ∨
        ∃ p ∈ splitOnChar ':' str.data, pyIntOfChars p = none) :
    ∃ e, time_to_seconds str = Except.error e := by
  unfold time_to_seconds
  cases hP : pyIntList (splitOnChar ':' str.data) with
  | none => exact ⟨_, rfl⟩
  | some parts =>
    have hlen := pyIntList_length _ _ hP
    have hmem := pyIntList_mem _ _ hP
    rcases h with ⟨h2, h3⟩ | ⟨p, hp, hnone⟩
    · rcases parts with _ | ⟨a, _ | ⟨b, _ | ⟨c, _ | ⟨d, t⟩⟩⟩⟩
      · exact ⟨_, rfl⟩
      · exact ⟨_, rfl⟩
      · exact absurd (by simpa using hlen.symm) h2
      · exact absurd (by simpa using hlen.symm) h3
      · exact ⟨_, rfl⟩
    · exact absurd hnone (hmem p hp)

/-- C10: for every whole number of seconds `s`, `_format_timestamp`
yields a 3-field `H:MM:SS` string (two-digit minute and second fields)
when `s >= 3600` and a 2-field `M:SS` string otherwise, and
`time_to_seconds` parses that string back to exactly `s`; moreover
`time_to_seconds` raises `ValueError` on any string that does not consist
of two or three colon-separated integer fields. -/
theorem format_timestamp_time_to_seconds_inverse :
    (∀ s : Nat, time_to_seconds (format_timestamp s) = Except.ok (Int.ofNat s)) ∧
    (∀ s : Nat,
      (splitOnChar ':' (format_timestamp s).data).length
          = (if 3600 ≤ s then 3 else 2) ∧
        ∀ g ∈ (splitOnChar ':' (format_timestamp s).data).tail, g.length = 2) ∧
    (∀ str : String,
      ((splitOnChar ':' str.data).length ≠ 2 ∧
          (splitOnChar ':' str.data).length ≠ 3) ∨
        (∃ p ∈ splitOnChar ':' str.data, pyIntOfChars p = none) →
      ∃ e, time_to_seconds str = Except.error e) :=
  ⟨time_to_seconds_format, format_timestamp_fields, time_to_seconds_error⟩

/-- Witness for C10: the round trip at 3725 seconds (`1:02:05`) and at 59
seconds (`0:59`), and the error on the non-numeric string `abc`. -/
theorem format_timestamp_time_to_seconds_inverse_witness :
    format_timestamp 3725 = "1:02:05" ∧
    time_to_seconds (format_timestamp 3725) = Except.ok (Int.ofNat 3725) ∧
    format_timestamp 59 = "0:59" ∧
    time_to_seconds (format_timestamp 59) = Except.ok (Int.ofNat 59) ∧
    (∃ e, time_to_seconds "abc" = Except.error e) :=
  ⟨rfl,
   format_timestamp_time_to_seconds_inverse.1 3725,
   rfl,
   format_timestamp_time_to_seconds_inverse.1 59,
   format_timestamp_time_to_seconds_inverse.2.2 "abc" (Or.inl (by decide))⟩

/-! ## TranscriptCache: `chunk_transcript` of `YoutuberTranscriptProcessor`
(`youtube_process.py` lines 471-525, the Chinese pipeline bound into the
clarify agent) -/

/-- The method `YoutuberTranscriptProcessor.chunk_transcript` as a state
transition on the cache file for its key
`{youtuber}_{window}_{step}_Chinese / {youtuber}_{video_id}.json`:
given the currently stored chunk list (`none` if the file is absent), the
raw transcript text, and the external summarizer, it returns
(new stored payload, number of summarizer invocations, returned value).
The source ends with `# return chunks` commented out, so the method
returns Python `None` (`none` here) on both paths. -/
def chunkTranscriptZh (cached : Option (List Chunk)) (rawTranscript : String)
    (summarize : List Entry → VideoSummary) (youtuber video_id : String)
    (window_size step_size : Nat) :
    Option (List Chunk) × Nat × Option (List Chunk) :=
  match cached with
  | some stored => (some stored, 0, none)
  | none =>
    let parsed := (split_video_to_multiple_transcript rawTranscript).1
    let vs := summarize parsed
    let chunks := sliding_window video_id youtuber parsed vs window_size step_size
    (some chunks, 1, none)

/-- C2 evidence: the cache discipline works — a cached call invokes the
summarizer zero times and leaves the stored payload unchanged, a fresh
call invokes it exactly once and persists the built chunks — but both
paths return `None`, not the chunk list, because the method's
`return chunks` line is commented out, contradicting its own docstring
(`Returns: list[dict]`). -/
theorem chunk_transcript_returns_none (stored : List Chunk) (raw : String)
    (summarize : List Entry → VideoSummary) (youtuber video_id : String)
    (W S : Nat) :
    chunkTranscriptZh (some stored) raw summarize youtuber video_id W S
        = (some stored, 0, none) ∧
    chunkTranscriptZh none raw summarize youtuber video_id W S
        = (some (sliding_window video_id youtuber
              (split_video_to_multiple_transcript raw).1
              (summarize (split_video_to_multiple_transcript raw).1) W S),
           1, none) :=
  ⟨rfl, rfl⟩

/-! ## Cache payload decoding (C5): the cached branch of
`chunk_transcript` (`youtube_process.py` lines 498-499) -/

/-- JSON values, the possible results of `json.loads`. -/
inductive Json where
  | null : Json
  | bool (b : Bool) : Json
  | num (n : Int) : Json
  | str (s : String) : Json
  | arr (items : List Json) : Json
  | obj (fields : List (String × Json)) : Json

/-- Whether a decoded payload is a list of record-shaped (dict) items —
what the spec calls chunk-shaped records. -/
def jsonIsChunkList (j : Json) : Bool :=
  match j with
  | Json.arr items =>
    items.all fun it =>
      match it with
      | Json.obj _ => true
      | _ => false
  | _ => false

/-- The cached branch of `chunk_transcript`:
`chunks = json.loads(file_path.read_text(encoding="utf-8"))`.
The argument is the outcome of `json.loads` on the stored text — `none`
when the text is not valid JSON and `json.loads` raises
`json.JSONDecodeError`; no further validation is performed. -/
def chunkCacheLoad (decoded : Option Json) : Except String Json :=
  match decoded with
  | none => Except.error "json.JSONDecodeError"
  | some v => Except.ok v

/-- Counterexample to C5 as stated: a stored payload that decodes to a
bare JSON string (or an object) is not a list of chunk-shaped records,
yet the cached branch succeeds and yields that value as the chunks — no
`CacheCorrupt` failure exists in the code. -/
theorem chunk_cache_load_no_validation :
    chunkCacheLoad (some (Json.str "hi")) = Except.ok (Json.str "hi") ∧
    jsonIsChunkList (Json.str "hi") = false ∧
    chunkCacheLoad (some (Json.obj [])) = Except.ok (Json.obj []) ∧
    jsonIsChunkList (Json.obj []) = false :=
  ⟨rfl, rfl, rfl, rfl⟩

/-- C5 as amended: the cached branch of `chunk_transcript` fails exactly
when the stored text fails JSON decoding (the `json.JSONDecodeError`
propagates, e.g. for a truncated partial write); every successfully
decoded payload — list or not — is accepted as the chunks value without
any shape validation. -/
theorem chunk_cache_load_errors_iff_undecodable (decoded : Option Json) :
    (chunkCacheLoad decoded).isOk = decoded.isSome ∧
    ∀ v, chunkCacheLoad (some v) = Except.ok v := by
  cases decoded <;> exact ⟨rfl, fun _ => rfl⟩

/-! ## IndexManager, lexical backend (C6):
`load_or_create_minsearch_index` / `create_minsearch_index`
(`youtube_search.py` lines 331-361) and the equivalent
`YoutuberTranscriptSearcherPre.load_or_create_index` (lines 71-127) -/

/-- The fitted minsearch `Index`: the constructor's field lists plus the
documents passed to `fit`. -/
structure MinIndex where
  text_fields : List String
  keyword_fields : List String
  docs : List Json

/-- `Index(text_fields=..., keyword_fields=...)` followed by
`index.fit(combined)`. -/
def minsearchIndexFit (docs : List Json) : MinIndex :=
  ⟨["title", "summary", "content", "content_eng"], ["youtuber", "category"], docs⟩

/-- The `combined` accumulation of `create_minsearch_index`: every cached
chunk file is decoded and extended into one list; a file whose JSON is
not a list raises `ValueError`. -/
def combineChunkFiles : List Json → Except String (List Json)
  | [] => Except.ok []
  | f :: fs =>
    match f with
    | Json.arr items => (combineChunkFiles fs).map fun rest => items ++ rest
    | _ => Except.error "does not contain a list"

/-- `create_minsearch_index`: fit a fresh index over all cached chunk
files and pickle it to the index file; returns the index and the new
stored blob (`some (some idx)` = a loadable pickle). -/
def createMinsearchIndex (files : List Json) :
    Except String (MinIndex × Option (Option MinIndex)) :=
  (combineChunkFiles files).map fun docs =>
    let idx := minsearchIndexFit docs
    (idx, some (some idx))

/-- `load_or_create_minsearch_index` as a state transition on the pickled
index file: `none` = file absent, `some none` = file present but
`pickle.load` raises (corrupt), `some (some idx)` = loadable.  A corrupt
or absent file falls through to a full rebuild. -/
def loadOrCreateMinsearchIndex (stored : Option (Option MinIndex))
    (files : List Json) : Except String (MinIndex × Option (Option MinIndex)) :=
  match stored with
  | some (some idx) => Except.ok (idx, some (some idx))
  | some none => createMinsearchIndex files
  | none => createMinsearchIndex files

theorem combineChunkFiles_arrays :
    ∀ docs : List (List Json),
      combineChunkFiles (docs.map Json.arr) = Except.ok docs.flatten := by
  intro docs
  induction docs with
  | nil => rfl
  | cons d ds ih => simp [combineChunkFiles, ih, Except.map]

/-- C6: when the persisted index file exists but fails to deserialize,
the next load discards it, rebuilds the index wholly from all chunk JSON
files cached in the namespace (each a list, as `save_transcript` writes
them), persists the rebuilt index, and returns it; afterwards loading
succeeds with that same index (for any later file set) without touching
the chunk files again, and no error surfaces to the searcher. -/
theorem minsearch_corrupt_index_rebuild (files : List Json)
    (docs : List (List Json)) (hfiles : files = docs.map Json.arr) :
    ∃ idx : MinIndex,
      loadOrCreateMinsearchIndex (some none) files
          = Except.ok (idx, some (some idx)) ∧
      idx = minsearchIndexFit docs.flatten ∧
      ∀ files2, loadOrCreateMinsearchIndex (some (some idx)) files2
          = Except.ok (idx, some (some idx)) := by
  subst hfiles
  refine ⟨minsearchIndexFit docs.flatten, ?_, rfl, fun files2 => rfl⟩
  simp [loadOrCreateMinsearchIndex, createMinsearchIndex, combineChunkFiles_arrays,
    Except.map]

/-- Witness for C6: a corrupt pickle over two cached files rebuilds from
both and then loads cleanly. -/
theorem minsearch_corrupt_index_rebuild_witness :
    ([Json.arr [Json.str "c1"], Json.arr [Json.str "c2", Json.str "c3"]] : List Json)
        = ([[Json.str "c1"], [Json.str "c2", Json.str "c3"]] : List (List Json)).map
            Json.arr ∧
    ∃ idx : MinIndex,
      loadOrCreateMinsearchIndex (some none)
          [Json.arr [Json.str "c1"], Json.arr [Json.str "c2", Json.str "c3"]]
          = Except.ok (idx, some (some idx)) ∧
      idx = minsearchIndexFit
          ([[Json.str "c1"], [Json.str "c2", Json.str "c3"]] : List (List Json)).flatten ∧
      ∀ files2, loadOrCreateMinsearchIndex (some (some idx)) files2
          = Except.ok (idx, some (some idx)) :=
  ⟨rfl, minsearch_corrupt_index_rebuild _ _ rfl⟩

/-! ## IndexManager, vector backend (C7, C8):
`ensure_es_index`, `index_chunks_es`, `search_es`
(`youtube_search.py` lines 197-326).

The external collaborators are abstracted: the sentence-transformers
encoder is a function `String → List ℚ` (its vectors are opaque here),
and the Elasticsearch collection is an explicit value.  Scores are `ℚ`. -/

/-- The explicit schema of `ensure_es_index` (lines 201-223): field names
with their declared types, and the dense-vector embedding field's
dimensionality and similarity. -/
structure EsMapping where
  fieldTypes : List (String × String)
  embeddingDims : Nat
  embeddingSimilarity : String

/-- The `index_body` mapping created for the `youtube_bilingual`
collection. -/
def esIndexMapping : EsMapping :=
  { fieldTypes :=
      [("video_id", "keyword"), ("youtuber", "keyword"),
       ("category", "keyword"), ("title", "text"), ("summary", "text"),
       ("title_zh", "text"), ("summary_zh", "text"), ("content", "text"),
       ("chunk_id", "integer"), ("start_time", "keyword"),
       ("end_time", "keyword"), ("embedding", "dense_vector")]
    embeddingDims := 384
    embeddingSimilarity := "cosine" }

/-- An indexed document: the chunk plus its embedding, as
`index_chunks_es` writes it (`chunk["embedding"] = embedding`). -/
structure EsDoc where
  chunk : Chunk
  embedding : List ℚ

/-- The named Elasticsearch collection: its schema and its documents. -/
structure EsCollection where
  mapping : EsMapping
  docs : List EsDoc

/-- `index_chunks_es` (lines 270-285): each chunk is embedded over
`f"{chunk['title_zh']} {chunk['content']}"` (the localized title plus the
content) and indexed with that embedding attached. -/
def index_chunks_es (encode : String → List ℚ) (chunks : List Chunk) :
    List EsDoc :=
  chunks.map fun c => ⟨c, encode (c.title_zh ++ " " ++ c.content)⟩

/-- `ensure_es_index` (lines 197-235), run once from the constructor, as
a transition on the collection state (`none` = the collection does not
exist): if it exists nothing happens; if absent, the collection is
created with `esIndexMapping` and bulk-loaded with every chunk of every
cache file of the creator namespace.  Cache files are modelled as the
chunk lists `save_transcript` writes, so the source's
`isinstance(data, list)` guard always passes. -/
def ensure_es_index (encode : String → List ℚ) (es : Option EsCollection)
    (cacheFiles : List (List Chunk)) : Option EsCollection :=
  match es with
  | some coll => some coll
  | none => some ⟨esIndexMapping, index_chunks_es encode cacheFiles.flatten⟩

/-- `check_index_es` (lines 237-268): reads the cache file for the video
and returns its chunks; every statement that would index documents is
commented out in the source, so the collection state is not an input or
output — the method performs no Elasticsearch operation. -/
def check_index_es (cacheFile : Option (List Chunk)) : Option (List Chunk) :=
  cacheFile

/-- C7: the collection existence check happens once, at construction: if
the collection is absent it is created with the explicit schema — a
384-dimensional dense embedding field with cosine similarity — and
bulk-loaded with every cached chunk of the namespace, each embedded over
localized title plus content; if it already exists, the state is
unchanged (no schema creation, no documents).  `ensure_es_index` is the
only definition that constructs or extends a collection —
`check_index_es` returns the cache file untouched and `search_es` below
is read-only. -/
theorem ensure_es_index_spec (encode : String → List ℚ)
    (cacheFiles : List (List Chunk)) :
    (∀ coll, ensure_es_index encode (some coll) cacheFiles = some coll) ∧
    ensure_es_index encode none cacheFiles =
      some ⟨esIndexMapping,
        cacheFiles.flatten.map fun c =>
          ⟨c, encode (c.title_zh ++ " " ++ c.content)⟩⟩ ∧
    esIndexMapping.embeddingDims = 384 ∧
    esIndexMapping.embeddingSimilarity = "cosine" ∧
    (∀ f, check_index_es f = f) :=
  ⟨fun _ => rfl, rfl, rfl, rfl, fun _ => rfl⟩

/-- The k-NN request body issued by `search_es` (lines 305-313). -/
structure KnnRequest where
  field : String
  query_vector : List ℚ
  k : Nat
  num_candidates : Nat

/-- One hit of the Elasticsearch response: `_score` plus the `_source`
fields `search_es` reads (`video_id` by direct subscript, the rest via
`.get`, hence optional). -/
structure EsHit where
  score : ℚ
  video_id : String
  title : Option String
  start_time : Option String
  content : Option String

/-- The result dict `search_es` builds for each hit. -/
structure SearchResult where
  score : ℚ
  video_id : String
  title : Option String
  start_time : Option String
  content : Option String

/-- The request `search_es` sends: k-NN on the `embedding` field with the
query embedding, `k`, and `num_candidates = max(50, k)`. -/
def searchEsRequest (queryEmb : List ℚ) (k : Nat) : KnnRequest :=
  ⟨"embedding", queryEmb, k, max 50 k⟩

/-- The per-hit projection of `search_es` (lines 314-325). -/
def hitResult (h : EsHit) : SearchResult :=
  ⟨h.score, h.video_id, h.title, h.start_time, h.content⟩

/-- `search_es` (lines 287-326): embed the query once, issue one k-NN
request, and map the hits to result dicts.  `esKnn` is the external
Elasticsearch query collaborator; `embedLog` threads the list of texts
the encoder has been invoked on, so the number of embedding calls is
observable. -/
def search_es (encode : String → List ℚ) (esKnn : KnnRequest → List EsHit)
    (embedLog : List String) (query_text : String) (k : Nat) :
    List SearchResult × List String :=
  let query_emb := encode query_text
  let hits := esKnn (searchEsRequest query_emb k)
  (hits.map hitResult, embedLog ++ [query_text])

/-- C8: assuming the external collaborator answers a k-NN request with at
most `k` hits in strictly descending score order (the spec's contract for
Elasticsearch), `search_es` returns at most `k` results, strictly
descending by score, each of exactly the shape
`{score, video_id, title, start_time, content}`; the query embedding is
computed exactly once per call (the embed log grows by exactly the query
text), and the request carries `num_candidates = max(50, k)`. -/
theorem search_es_spec (encode : String → List ℚ)
    (esKnn : KnnRequest → List EsHit) (embedLog : List String)
    (query_text : String) (k : Nat)
    (hlen : (esKnn (searchEsRequest (encode query_text) k)).length ≤ k)
    (hsorted : (esKnn (searchEsRequest (encode query_text) k)).Sorted
      fun a b => b.score < a.score) :
    (search_es encode esKnn embedLog query_text k).1.length ≤ k ∧
    (search_es encode esKnn embedLog query_text k).1.Sorted
      (fun a b => b.score < a.score) ∧
    (search_es encode esKnn embedLog query_text k).2 = embedLog ++ [query_text] ∧
    (searchEsRequest (encode query_text) k).num_candidates = max 50 k ∧
    (search_es encode esKnn embedLog query_text k).1 =
      (esKnn (searchEsRequest (encode query_text) k)).map hitResult := by
  refine ⟨?_, ?_, rfl, rfl, rfl⟩
  · simpa [search_es] using hlen
  · exact List.Pairwise.map hitResult (fun a b h => h) hsorted

/-- Witness for C8: a collaborator answering one hit for any request. -/
theorem search_es_spec_witness :
    (search_es (fun _ => [(1 : ℚ)])
        (fun _ => [⟨(3 : ℚ) / 2, "v1", some "t", some "0:00", some "c"⟩])
        [] "lip gloss" 1).1.length ≤ 1 ∧
    (search_es (fun _ => [(1 : ℚ)])
        (fun _ => [⟨(3 : ℚ) / 2, "v1", some "t", some "0:00", some "c"⟩])
        [] "lip gloss" 1).1.Sorted (fun a b => b.score < a.score) ∧
    (search_es (fun _ => [(1 : ℚ)])
        (fun _ => [⟨(3 : ℚ) / 2, "v1", some "t", some "0:00", some "c"⟩])
        [] "lip gloss" 1).2 = [] ++ ["lip gloss"] ∧
    (searchEsRequest ((fun (_ : String) => [(1 : ℚ)]) "lip gloss") 1).num_candidates
        = max 50 1 ∧
    (search_es (fun _ => [(1 : ℚ)])
        (fun _ => [⟨(3 : ℚ) / 2, "v1", some "t", some "0:00", some "c"⟩])
        [] "lip gloss" 1).1 =
      ((fun (_ : KnnRequest) => [⟨(3 : ℚ) / 2, "v1", some "t", some "0:00", some "c"⟩])
          (searchEsRequest ((fun (_ : String) => [(1 : ℚ)]) "lip gloss") 1)).map
        hitResult :=
  search_es_spec (fun _ => [(1 : ℚ)])
    (fun _ => [⟨(3 : ℚ) / 2, "v1", some "t", some "0:00", some "c"⟩])
    [] "lip gloss" 1 (by simp) (by simp)

/-! ## Cache listing (C9): `list_cached_videos`
(`clarify_agent.py` lines 300-336) -/

/-- One persisted chunk file of a creator namespace: its stem (file name
without the `.json` extension) and its decoded chunk list. -/
structure CacheFile where
  stem : String
  chunks : List Chunk

/-- The record `list_cached_videos` builds per listed file. -/
structure VideoListing where
  title : String
  summary : String
  url : String
deriving DecidableEq, Repr

/-- Python `str.split(sep)` for a non-empty separator string: scan left
to right, cutting at each non-overlapping occurrence of `sep`; fuelled by
the input length, which always suffices. -/
def pySplitAux (sep : List Char) : Nat → List Char → List (List Char)
  | _, [] => [[]]
  | 0, l => [l]
  | fuel + 1, c :: cs =>
    if sep.isPrefixOf (c :: cs) && !sep.isEmpty then
      [] :: pySplitAux sep fuel ((c :: cs).drop sep.length)
    else
      match pySplitAux sep fuel cs with
      | g :: gs => (c :: g) :: gs
      | [] => [[c]]

/-- Python `name.split(sep)`. -/
def pySplit (sep s : String) : List String :=
  (pySplitAux sep.data s.data.length s.data).map fun g => ⟨g⟩

/-- The record contributed by one globbed cache file, if any: metadata
from the file's first chunk, and the video id from the stem split on
`f"{youtuber}_"` — kept only when that split yields exactly two parts.
`none` with an empty chunk list stands for the `chunks[0]` IndexError. -/
def videoRecordOf (youtuber : String) (f : CacheFile) : Option VideoListing :=
  match f.chunks with
  | [] => none
  | c0 :: _ =>
    let parts := pySplit (youtuber ++ "_") f.stem
    if parts.length = 2 then
      some ⟨c0.title, c0.summary,
        "https://www.youtube.com/watch?v=" ++ parts.getD 1 ""⟩
    else none

/-- The glob `f"{youtuber}_*.json"`: cache files whose stem starts with
`youtuber` plus an underscore. -/
def globMatches (youtuber : String) (f : CacheFile) : Bool :=
  (youtuber ++ "_").data.isPrefixOf f.stem.data

/-- The function `list_cached_videos` of `clarify_agent.py` (lines
300-336) over the namespace directory contents (`none` = the directory
does not exist): iterate the globbed files, read `chunks[0]` for title
and summary (IndexError on an empty file), split the stem on
`f"{youtuber}_"`, and append a record only when the split has exactly two
parts. -/
def list_cached_videos (youtuber : String) (dir : Option (List CacheFile)) :
    Except String (List VideoListing) :=
  match dir with
  | none => Except.ok []
  | some files =>
    (files.filter (globMatches youtuber)).foldl
      (fun acc f =>
        match acc with
        | Except.error e => Except.error e
        | Except.ok vs =>
          match f.chunks with
          | [] => Except.error "IndexError: list index out of range"
          | c0 :: _ =>
            let parts := pySplit (youtuber ++ "_") f.stem
            if parts.length = 2 then
              Except.ok (vs ++ [⟨c0.title, c0.summary,
                "https://www.youtube.com/watch?v=" ++ parts.getD 1 ""⟩])
            else Except.ok vs)
      (Except.ok [])

/-- A nonempty demo chunk list for cache files. -/
def demoChunk : Chunk :=
  ⟨"vid1", "mindy", "Demo title", "Demo summary", "makeup", "標題", "摘要", 1,
    "0:00", "0:05", "hello"⟩

/-- Counterexample to C9 as stated: for creator `a`, the cached file with
stem `a_a_b` (video id `a_b`, which contains the separator `a_`) matches
the glob and holds a chunk, yet `list_cached_videos` returns no record
for it — `"a_a_b".split("a_")` has three parts, so the file is silently
omitted. -/
theorem list_cached_videos_omits_file :
    globMatches "a" ⟨"a_a_b", [demoChunk]⟩ = true ∧
    pySplit ("a" ++ "_") "a_a_b" = ["", "", "b"] ∧
    list_cached_videos "a" (some [⟨"a_a_b", [demoChunk]⟩]) = Except.ok [] :=
  ⟨rfl, rfl, rfl⟩

theorem list_cached_videos_foldl (youtuber : String) :
    ∀ (fs : List CacheFile), (∀ f ∈ fs, f.chunks ≠ []) →
      ∀ vs : List VideoListing,
        fs.foldl
          (fun acc f =>
            match acc with
            | Except.error e => Except.error e
            | Except.ok vs =>
              match f.chunks with
              | [] => Except.error "IndexError: list index out of range"
              | c0 :: _ =>
                let parts := pySplit (youtuber ++ "_") f.stem
                if parts.length = 2 then
                  Except.ok (vs ++ [⟨c0.title, c0.summary,
                    "https://www.youtube.com/watch?v=" ++ parts.getD 1 ""⟩])
                else Except.ok vs)
          (Except.ok vs)
        = Except.ok (vs ++ fs.filterMap (videoRecordOf youtuber)) := by
  intro fs
  induction fs with
  | nil => intro _ vs; simp
  | cons f fs' ih =>
    intro h vs
    obtain ⟨c0, cs, hc⟩ : ∃ c0 cs, f.chunks = c0 :: cs := by
      cases hf : f.chunks with
      | nil => exact absurd hf (h f (List.mem_cons_self f fs'))
      | cons c0 cs => exact ⟨c0, cs, rfl⟩
    have h' := fun g hg => h g (List.mem_cons_of_mem _ hg)
    simp only [List.foldl_cons, List.filterMap_cons, hc, videoRecordOf]
    by_cases hp : (pySplit (youtuber ++ "_") f.stem).length = 2
    · simp only [hp, if_true]
      rw [ih h']
      simp
    · simp only [hp, if_false]
      exact ih h' vs

/-- C9 as amended: when the namespace directory exists,
`list_cached_videos` returns one `{title, summary, url}` record — built
from the file's first chunk, the video id in the url taken from the stem
— for exactly those globbed cache files whose stem splits into two parts
on `f"{youtuber}_"` (equivalently, whose video id does not itself contain
that separator); files whose split yields more parts are silently
omitted, and every globbed file must hold at least one chunk or the call
fails with IndexError.  When the directory does not exist it returns the
empty list. -/
theorem list_cached_videos_characterization (youtuber : String)
    (files : List CacheFile)
    (h : ∀ f ∈ files, f.chunks ≠ []) :
    list_cached_videos youtuber (some files) =
      Except.ok ((files.filter (globMatches youtuber)).filterMap
        (videoRecordOf youtuber)) ∧
    list_cached_videos youtuber none = Except.ok [] := by
  refine ⟨?_, rfl⟩
  unfold list_cached_videos
  have hsub : ∀ f ∈ files.filter (globMatches youtuber), f.chunks ≠ [] :=
    fun f hf => h f (List.mem_of_mem_filter hf)
  simpa using list_cached_videos_foldl youtuber
    (files.filter (globMatches youtuber)) hsub []

/-- Witness for C9 as amended: one well-formed cached file yields exactly
its record, with the video id recovered from the stem. -/
theorem list_cached_videos_characterization_witness :
    (∀ f ∈ [(⟨"mindy_vid1", [demoChunk]⟩ : CacheFile)], f.chunks ≠ []) ∧
    list_cached_videos "mindy" (some [⟨"mindy_vid1", [demoChunk]⟩]) =
      Except.ok (([(⟨"mindy_vid1", [demoChunk]⟩ : CacheFile)].filter
        (globMatches "mindy")).filterMap (videoRecordOf "mindy")) ∧
    list_cached_videos "mindy" none = Except.ok [] ∧
    list_cached_videos "mindy" (some [⟨"mindy_vid1", [demoChunk]⟩]) =
      Except.ok [⟨"Demo title", "Demo summary",
        "https://www.youtube.com/watch?v=vid1"⟩] :=
  ⟨by decide,
   (list_cached_videos_characterization "mindy" [⟨"mindy_vid1", [demoChunk]⟩]
     (by decide)).1,
   (list_cached_videos_characterization "mindy" [⟨"mindy_vid1", [demoChunk]⟩]
     (by decide)).2,
   rfl⟩

end BeautyAgent
